import Mathlib

/-!
Shallow embedding of the odo `catalog describe component` command and of the
component lifecycle adapter it documents, together with proofs of the
testable properties stated in the specification.

The repository slice under verification contains the CLI command
(`DescribeComponentOptions.Complete/Validate/Run`, `GetDevfileComponentsByName`)
and the unit tests of the kubernetes component adapter
(`createOrUpdateComponent`, `DoesComponentExist`,
`getFirstContainerWithSourceVolume`, `getPod`, `Delete`) and of the bounded
concurrent task runner.  The adapter and runner implementations themselves are
not part of the slice, so they are modelled from the specification, as marked
on each definition.
-/

namespace Odo

/-- Error kinds of the adapter layer, following the spec's error classification:
`NotFound`, `Forbidden`, `InvalidSpec`, `BackendRejected`, `PodFailed`,
`Timeout`. -/
inductive ErrKind where
  | notFound
  | forbidden
  | invalidSpec
  | backendRejected
  | podFailed
  | timeout
  deriving DecidableEq, Repr

/-- An environment variable of a container (name/value pair). -/
structure EnvVar where
  name : String
  value : String
  deriving DecidableEq, Repr

/-- A container of a component description: a name and an ordered environment. -/
structure Container where
  name : String
  env : List EnvVar
  deriving DecidableEq, Repr

/-- The well-known project-source environment variable advertised by containers
that mount the synced sources (`generator.EnvProjectsSrc` in the tests). -/
def EnvProjectsSrc : String := "PROJECTS_SRC"

/-- A component description: name plus the ordered list of declared containers. -/
structure ComponentDescription where
  name : String
  containers : List Container
  deriving DecidableEq, Repr

/-- The backend's declarative workload resource (deployment-equivalent),
synthesized from a component description plus a component name. -/
structure WorkloadResource where
  name : String
  containers : List Container
  deriving DecidableEq, Repr

/-- Modelled from the spec: the Workload Resource Builder translates a
component description and a component name into a workload resource fully
determined by the description (pure function). -/
def buildWorkloadResource (componentName : String) (d : ComponentDescription) :
    WorkloadResource :=
  ⟨componentName, d.containers⟩

/-- A write operation issued against the orchestrator backend: either a create
of a fresh workload resource or an update of the existing resource of the
given name. -/
inductive WriteOp where
  | create (r : WorkloadResource)
  | update (name : String) (r : WorkloadResource)
  deriving DecidableEq, Repr

/-- Modelled from the spec: `createOrUpdateComponent` (the adapter
implementation is absent from the slice; only `TestCreateOrUpdateComponent`
is present).  It builds the target workload resource from the description,
fails with an `InvalidSpec` kind when the description yields zero containers,
issues a create when `running` is false and an update against the existing
resource of the same name when `running` is true, and propagates backend
rejection.  `backendAccepts` models whether the backend accepts the write. -/
def createOrUpdateComponent (componentName : String) (d : ComponentDescription)
    (running : Bool) (backendAccepts : Bool) : Except ErrKind WriteOp :=
  if d.containers.isEmpty then
    .error .invalidSpec
  else
    let r := buildWorkloadResource componentName d
    let op := if running then WriteOp.update componentName r else WriteOp.create r
    if backendAccepts then .ok op else .error .backendRejected

/-- Modelled from the spec: the orchestrator backend's possible answers to a
get-workload-resource-by-name request: the resource held under some name, a
structured not-found condition, or any other backend failure. -/
inductive GetResult where
  | found (name : String)
  | notFound
  | backendErr (msg : String)
  deriving DecidableEq, Repr

/-- Modelled from the spec: `DoesComponentExist` (the adapter implementation is
absent from the slice; only `TestDoesComponentExist` is present).  It looks up
the workload resource by name; a backend not-found condition maps to
`(false, nil)`, any other backend failure is surfaced as-is, and the result is
true exactly when the backend holds a resource whose name equals the query. -/
def DoesComponentExist (name : String) (r : GetResult) : Except String Bool :=
  match r with
  | .found n => .ok (n == name)
  | .notFound => .ok false
  | .backendErr e => .error e

/-- Whether a container advertises the well-known project-source variable. -/
def hasSourceVolume (c : Container) : Bool :=
  c.env.any (fun e => e.name == EnvProjectsSrc)

/-- Modelled from the spec: `getFirstContainerWithSourceVolume` (the adapter
implementation is absent from the slice; only
`TestGetFirstContainerWithSourceVolume` is present).  It scans the containers
in declaration order for the first one advertising the project-source
variable and returns its name together with the variable's value; when no
container advertises it, it fails with the `InvalidSpec` configuration-defect
kind. -/
def getFirstContainerWithSourceVolume :
    List Container → Except ErrKind (String × String)
  | [] => .error .invalidSpec
  | c :: rest =>
    match c.env.find? (fun e => e.name == EnvProjectsSrc) with
    | some e => .ok (c.name, e.value)
    | none => getFirstContainerWithSourceVolume rest

/-- The phase reported for a pod by the backend. -/
inductive PodPhase where
  | pending
  | running
  | succeeded
  | failed
  | unknown
  deriving DecidableEq, Repr

/-- A single reported state of the backend pod, as produced by the watch
stream: the pod's name, its phase, and the readiness flag of each container. -/
structure PodObservation where
  name : String
  phase : PodPhase
  containersReady : List Bool
  deriving DecidableEq, Repr

/-- A pod observation is ready when every container reports ready. -/
def podReady (o : PodObservation) : Bool :=
  o.containersReady.all (fun b => b)

/-- Whether a watch event decides the wait: a terminal failure phase, or
phase Running with all containers ready. -/
def decidesWait (o : PodObservation) : Bool :=
  o.phase == .failed || o.phase == .unknown || (o.phase == .running && podReady o)

/-- Modelled from the spec: `WaitAndGetComponentPod` / `getPod` (the adapter
implementation is absent from the slice; only `TestWaitAndGetComponentPod` is
present).  The argument is the finite sequence of pod observations delivered
by the watch stream before the deadline elapses; the wait consumes events
until a pod reaches phase Running with all containers ready (success, the pod
is returned), or is observed in phase Failed or Unknown (fatal `PodFailed`),
and yields `Timeout` when the deadline fires with no deciding event. -/
def waitAndGetComponentPod :
    List PodObservation → Except ErrKind PodObservation
  | [] => .error .timeout
  | o :: rest =>
    match o.phase with
    | .failed => .error .podFailed
    | .unknown => .error .podFailed
    | .running =>
      if podReady o then .ok o else waitAndGetComponentPod rest
    | _ => waitAndGetComponentPod rest

/-- A pod as returned by a listing request (only its identity matters to the
delete path). -/
structure Pod where
  name : String
  deriving DecidableEq, Repr

/-- The backend's possible answers to a list-pods-by-selector request: a pod
list, a structured pod-not-found/selector-empty condition carrying the
selector, a forbidden condition, or any other listing failure. -/
inductive ListPodsResult where
  | pods (ps : List Pod)
  | podNotFound (selector : String)
  | forbidden
  | listErr (msg : String)
  deriving DecidableEq, Repr

/-- A request issued by the adapter against the backend on the delete path,
recording the label selector string it carries. -/
inductive BackendRequest where
  | listPods (selector : String)
  | deleteCollection (selector : String)
  deriving DecidableEq, Repr

/-- Modelled from the spec: `util.ConvertLabelsToSelector` renders a label set
as the selector string joining each `key=value` pair with commas (the empty
label set renders as the empty selector). -/
def convertLabelsToSelector (labels : List (String × String)) : String :=
  String.intercalate "," (labels.map (fun kv => kv.1 ++ "=" ++ kv.2))

/-- Modelled from the spec: `Delete(labels, hardTimeout)` (the adapter
implementation is absent from the slice; only `TestAdapterDelete` is
present).  `labels` is the caller's label set, `none` modelling a nil map.
It first lists pods by the label selector; a pod-not-found/selector-empty
condition is treated as already absent (nil), a forbidden condition is a
clean no-op (nil), and any other listing error is surfaced with the delete
aborted.  When pods are found it issues a bulk delete-collection carrying the
identical selector used for the listing; a nil label set cannot form that
selector and is an error.  `listAnswer` is the backend's answer to the
listing and `deleteErr` the backend's answer to the delete-collection; the
second component of the result is the trace of requests issued. -/
def Delete (labels : Option (List (String × String)))
    (listAnswer : ListPodsResult) (deleteErr : Option String) :
    Except String Unit × List BackendRequest :=
  let sel := convertLabelsToSelector (labels.getD [])
  match listAnswer with
  | .podNotFound _ => (.ok (), [.listPods sel])
  | .forbidden => (.ok (), [.listPods sel])
  | .listErr e => (.error e, [.listPods sel])
  | .pods ps =>
    if ps.isEmpty then (.ok (), [.listPods sel])
    else
      match labels with
      | none => (.error "labels cannot be empty", [.listPods sel])
      | some _ =>
        match deleteErr with
        | none => (.ok (), [.listPods sel, .deleteCollection sel])
        | some e => (.error e, [.listPods sel, .deleteCollection sel])

/-- The completed state of the `describe component` command options: the
component name taken from the arguments, the devfile components whose name
matches it, and the name of the matching legacy (s2i) component, if any. -/
structure DescribeComponentOptions where
  componentName : String
  devfileComponents : List String
  component : String
  deriving DecidableEq, Repr

/-- `GetDevfileComponentsByName` appends to `devfileComponents` every devfile
component of the catalog list whose name equals the queried component name. -/
def GetDevfileComponentsByName (o : DescribeComponentOptions)
    (items : List String) : DescribeComponentOptions :=
  { o with devfileComponents :=
      o.devfileComponents ++ items.filter (fun n => n == o.componentName) }

/-- The loop of the legacy-catalog task of `Complete`: for each image of the
catalog list whose name equals the queried name, `o.component` is overwritten
with that image name. -/
def setComponentFromCatalog (name : String) (items : List String)
    (component : String) : String :=
  items.foldl (fun acc n => if n == name then n else acc) component

/-- The answer of the legacy catalog listing (`catalog.ListComponents`): an
optional error and the items of the returned list. -/
structure CatalogListAnswer where
  err : Option String
  items : List String
  deriving DecidableEq, Repr

/-- The answer of the devfile-registry listing
(`catalog.ListDevfileComponents`): an optional error, whether any registry is
configured, and the items of the returned list. -/
structure DevfileListAnswer where
  err : Option String
  registriesPresent : Bool
  items : List String
  deriving DecidableEq, Repr

/-- `DescribeComponentOptions.Complete`: sets the component name from the
first argument; unless the push target is docker it creates the generic
context (whose failure is returned immediately) and registers a task querying
the legacy catalog, whose failure is only logged, never sent to the error
channel, and whose matching items set `component`; it always registers a task
querying the devfile registries, whose failure is sent to the error channel,
and which collects the matching devfile components; it then runs both tasks
and returns the first error received on the channel, hence exactly the
devfile-listing error. -/
def Complete (arg : String) (isPushTargetDocker : Bool)
    (contextErr : Option String) (legacy : CatalogListAnswer)
    (devfileList : DevfileListAnswer) :
    Option String × DescribeComponentOptions :=
  let o : DescribeComponentOptions := ⟨arg, [], ""⟩
  if !isPushTargetDocker && contextErr.isSome then
    (contextErr, o)
  else
    let o :=
      if isPushTargetDocker then o
      else { o with
             component := setComponentFromCatalog arg legacy.items o.component }
    let o := GetDevfileComponentsByName o devfileList.items
    (devfileList.err, o)

/-- `errors.Wrapf` of the pkg/errors library used by `Validate`: wrapping a
nil error returns nil; wrapping a non-nil error prefixes the message. -/
def wrapf (e : Option String) (msg : String) : Option String :=
  e.map (fun cause => msg ++ ": " ++ cause)

/-- `DescribeComponentOptions.Validate`: when no devfile component matched and
no legacy component matched, it returns `errors.Wrapf` applied to the nil
named return value `err`; otherwise it returns nil. -/
def Validate (o : DescribeComponentOptions) : Option String :=
  if o.devfileComponents.length = 0 ∧ o.component = "" then
    wrapf none ("No components with the name " ++ o.componentName ++ " found")
  else
    none

/-- Modelled from the spec: the state of the bounded concurrent Task Runner
(`util.NewConcurrentTasks`; the implementation is absent from the slice, only
its calling contract is given).  Units are independent, so each is modelled
by its outcome: `none` for success, `some e` for the error it sends to the
error sink.  `pending` holds the registered units not yet started, `running`
the units currently executing, `finished` the units already completed in
completion order, and `firstErr` the first error observed so far. -/
structure RunnerState where
  pending : List (Option String)
  running : List (Option String)
  finished : List (Option String)
  firstErr : Option String
  deriving DecidableEq, Repr

/-- The runner state at the start of `Run()`: all registered units pending. -/
def initState (units : List (Option String)) : RunnerState :=
  ⟨units, [], [], none⟩

/-- Folding a completed unit's outcome into the first observed error: the
first error is kept, later ones are discarded. -/
def recordErr (acc : Option String) (u : Option String) : Option String :=
  match acc with
  | some e => some e
  | none => u

/-- Modelled from the spec: one scheduling step of `Run()` with at most `N`
concurrent workers.  A pending unit may start only while fewer than `N` units
run; any running unit may finish, in an unspecified order, appending itself
to the completion log and folding its outcome into the first observed
error. -/
inductive RunnerStep (N : Nat) : RunnerState → RunnerState → Prop where
  | start (u : Option String) (p r f : List (Option String)) (e : Option String)
      (h : r.length < N) :
      RunnerStep N ⟨u :: p, r, f, e⟩ ⟨p, u :: r, f, e⟩
  | finish (u : Option String) (p l r f : List (Option String))
      (e : Option String) :
      RunnerStep N ⟨p, l ++ u :: r, f, e⟩ ⟨p, l ++ r, f ++ [u], recordErr e u⟩

/-- The termination measure of the runner: every step strictly decreases it. -/
def runnerMeasure (σ : RunnerState) : Nat :=
  2 * σ.pending.length + σ.running.length

/-- The invariant of the runner: the worker bound is respected, no unit is
lost or duplicated, and the first observed error is the first failing unit of
the completion log. -/
structure RunnerInv (N : Nat) (units : List (Option String))
    (σ : RunnerState) : Prop where
  bound : σ.running.length ≤ N
  perm : (σ.pending ++ σ.running ++ σ.finished).Perm units
  first : σ.firstErr = σ.finished.findSome? id

lemma find?_src_eq_none {c : Container} (h : hasSourceVolume c = false) :
    c.env.find? (fun v => v.name == EnvProjectsSrc) = none := by
  simp only [hasSourceVolume, List.any_eq_false] at h
  rw [List.find?_eq_none]
  intro v hv
  simpa using h v hv

/-- C6: `getFirstContainerWithSourceVolume` returns the first container, in
input order, whose environment contains the well-known project-source
variable, together with that variable's value; when no container exposes the
variable it returns an error; on the one-container input with environment
RANDOMENV:/mypath2 and the source variable at /mypath it returns
("test", "/mypath") without error. -/
theorem getFirstContainerWithSourceVolume_spec :
    (∀ pre c post e, (∀ c' ∈ pre, hasSourceVolume c' = false) →
        c.env.find? (fun v => v.name == EnvProjectsSrc) = some e →
        getFirstContainerWithSourceVolume (pre ++ c :: post) =
          .ok (c.name, e.value))
    ∧ (∀ cs, (∀ c ∈ cs, hasSourceVolume c = false) →
        getFirstContainerWithSourceVolume cs = .error .invalidSpec)
    ∧ getFirstContainerWithSourceVolume
        [⟨"test", [⟨"RANDOMENV", "/mypath2"⟩, ⟨EnvProjectsSrc, "/mypath"⟩]⟩]
      = .ok ("test", "/mypath") := by
  refine ⟨?first, ?null, ?conc⟩
  case first =>
    intro pre
    induction pre with
    | nil =>
      intro c post e _ hfind
      simp [getFirstContainerWithSourceVolume, hfind]
    | cons a t ih =>
      intro c post e hpre hfind
      have ha : hasSourceVolume a = false := hpre a (by simp)
      have ht : ∀ c' ∈ t, hasSourceVolume c' = false := fun c' hc' =>
        hpre c' (by simp [hc'])
      simpa [getFirstContainerWithSourceVolume, find?_src_eq_none ha]
        using ih c post e ht hfind
  case null =>
    intro cs
    induction cs with
    | nil => intro _; rfl
    | cons a t ih =>
      intro h
      have ha : hasSourceVolume a = false := h a (by simp)
      have ht : ∀ c' ∈ t, hasSourceVolume c' = false := fun c' hc' =>
        h c' (by simp [hc'])
      simpa [getFirstContainerWithSourceVolume, find?_src_eq_none ha] using ih ht
  case conc => rfl

/-- Witness for C6 at a concrete two-container input: the first container
lacking the source variable is skipped and the second is returned. -/
theorem getFirstContainerWithSourceVolume_spec_witness :
    getFirstContainerWithSourceVolume
        [⟨"test1", [⟨"RANDOMENV", "/mypath1"⟩]⟩,
         ⟨"test2", [⟨EnvProjectsSrc, "/mypath2"⟩]⟩]
      = .ok ("test2", "/mypath2") :=
  getFirstContainerWithSourceVolume_spec.1
    [⟨"test1", [⟨"RANDOMENV", "/mypath1"⟩]⟩]
    ⟨"test2", [⟨EnvProjectsSrc, "/mypath2"⟩]⟩ [] ⟨EnvProjectsSrc, "/mypath2"⟩
    (by decide) (by decide)

/-- C5: `DoesComponentExist` returns true without error exactly when the
backend holds a workload resource whose name equals the queried name, returns
false without error on a backend not-found condition, and surfaces any other
backend failure. -/
theorem doesComponentExist_spec :
    (∀ name r, DoesComponentExist name r = .ok true ↔ r = .found name)
    ∧ (∀ name, DoesComponentExist name .notFound = .ok false)
    ∧ (∀ name e, DoesComponentExist name (.backendErr e) = .error e) := by
  refine ⟨?iff, fun name => rfl, fun name e => rfl⟩
  intro name r
  cases r <;> simp [DoesComponentExist]

/-- Witness for C5: the iff applied at a concrete held resource. -/
theorem doesComponentExist_spec_witness :
    DoesComponentExist "test-name" (.found "test-name") = .ok true :=
  (doesComponentExist_spec.1 "test-name" (.found "test-name")).mpr rfl

/-- C1: `createOrUpdateComponent` on a description with zero containers fails
with the `InvalidSpec` kind for both values of the running flag; on a
description with at least one container it succeeds when the backend accepts
the write. -/
theorem createOrUpdateComponent_zero_containers :
    (∀ name d running accepts, d.containers = [] →
        createOrUpdateComponent name d running accepts = .error .invalidSpec)
    ∧ (∀ name d running, d.containers ≠ [] →
        ∃ op, createOrUpdateComponent name d running true = .ok op) := by
  constructor
  · intro name d running accepts h
    simp [createOrUpdateComponent, h]
  · intro name d running h
    cases running
    · exact ⟨.create (buildWorkloadResource name d),
        by simp [createOrUpdateComponent, h]⟩
    · exact ⟨.update name (buildWorkloadResource name d),
        by simp [createOrUpdateComponent, h]⟩

/-- Witness for C1: a zero-container description fails with `InvalidSpec` for
running=false and running=true, and a one-container description succeeds. -/
theorem createOrUpdateComponent_zero_containers_witness :
    createOrUpdateComponent "test" ⟨"d", []⟩ false true = .error .invalidSpec
    ∧ createOrUpdateComponent "test" ⟨"d", []⟩ true true = .error .invalidSpec
    ∧ ∃ op, createOrUpdateComponent "test" ⟨"d", [⟨"component", []⟩]⟩ false true
        = .ok op :=
  ⟨createOrUpdateComponent_zero_containers.1 "test" ⟨"d", []⟩ false true rfl,
   createOrUpdateComponent_zero_containers.1 "test" ⟨"d", []⟩ true true rfl,
   createOrUpdateComponent_zero_containers.2 "test" ⟨"d", [⟨"component", []⟩]⟩
     false (by decide)⟩

/-- C7: on a description with at least one container, when the backend
accepts the write, `createOrUpdateComponent` with running=false issues
exactly a create of the built workload resource and with running=true issues
exactly an update against the existing resource of the same name; there is no
fallback between create and update. -/
theorem createOrUpdateComponent_create_vs_update :
    ∀ name d, d.containers ≠ [] →
      createOrUpdateComponent name d false true
          = .ok (.create (buildWorkloadResource name d))
      ∧ createOrUpdateComponent name d true true
          = .ok (.update name (buildWorkloadResource name d)) := by
  intro name d h
  constructor <;> simp [createOrUpdateComponent, h]

/-- Witness for C7 at a concrete one-container description. -/
theorem createOrUpdateComponent_create_vs_update_witness :
    createOrUpdateComponent "test" ⟨"d", [⟨"component", []⟩]⟩ false true
        = .ok (.create ⟨"test", [⟨"component", []⟩]⟩)
    ∧ createOrUpdateComponent "test" ⟨"d", [⟨"component", []⟩]⟩ true true
        = .ok (.update "test" ⟨"test", [⟨"component", []⟩]⟩) :=
  createOrUpdateComponent_create_vs_update "test" ⟨"d", [⟨"component", []⟩]⟩
    (by decide)

/-- C3: `Delete` returns nil when the pod listing reports a
pod-not-found/selector-empty condition and when it reports a forbidden
condition; any other listing error is returned to the caller and no
delete-collection request is issued. -/
theorem delete_tolerates_absent_and_forbidden :
    (∀ labels dErr s, (Delete labels (.podNotFound s) dErr).1 = .ok ())
    ∧ (∀ labels dErr, (Delete labels .forbidden dErr).1 = .ok ())
    ∧ (∀ labels dErr e, (Delete labels (.listErr e) dErr).1 = .error e
        ∧ ∀ s, BackendRequest.deleteCollection s ∉
            (Delete labels (.listErr e) dErr).2) := by
  refine ⟨fun labels dErr s => rfl, fun labels dErr => rfl, ?_⟩
  intro labels dErr e
  exact ⟨rfl, by simp [Delete]⟩

/-- C4: when matching pods are found, the selector carried by the issued
delete-collection request is the very selector used for the preceding pod
listing; a nil label set makes `Delete` return an error with no
delete-collection issued; and a backend rejection of the delete-collection
(as raised on a selector mismatch) is propagated. -/
theorem delete_selector_identity :
    (∀ ls ps dErr, ps ≠ [] →
        (Delete (some ls) (.pods ps) dErr).2 =
          [.listPods (convertLabelsToSelector ls),
           .deleteCollection (convertLabelsToSelector ls)])
    ∧ (∀ ps dErr, ps ≠ [] →
        (Delete none (.pods ps) dErr).1 = .error "labels cannot be empty"
        ∧ ∀ s, BackendRequest.deleteCollection s ∉
            (Delete none (.pods ps) dErr).2)
    ∧ (∀ ls ps e, ps ≠ [] →
        (Delete (some ls) (.pods ps) (some e)).1 = .error e) := by
  refine ⟨?ident, ?nillab, ?rejected⟩
  case ident =>
    intro ls ps dErr h
    have h' : ps.isEmpty = false := by simpa using h
    cases dErr <;> simp [Delete, h']
  case nillab =>
    intro ps dErr h
    have h' : ps.isEmpty = false := by simpa using h
    exact ⟨by simp [Delete, h'], by simp [Delete, h']⟩
  case rejected =>
    intro ls ps e h
    have h' : ps.isEmpty = false := by simpa using h
    simp [Delete, h']

/-- Witness for C4 at a concrete pod list and label set. -/
theorem delete_selector_identity_witness :
    (Delete (some [("component", "component")]) (.pods [⟨"pod"⟩]) none).2 =
        [.listPods (convertLabelsToSelector [("component", "component")]),
         .deleteCollection (convertLabelsToSelector [("component", "component")])]
    ∧ (Delete none (.pods [⟨"pod"⟩]) none).1 = .error "labels cannot be empty"
    ∧ (Delete (some [("component", "component")]) (.pods [⟨"pod"⟩])
        (some "collection labels are not matching")).1 =
          .error "collection labels are not matching" :=
  ⟨delete_selector_identity.1 [("component", "component")] [⟨"pod"⟩] none
      (by decide),
   (delete_selector_identity.2.1 [⟨"pod"⟩] none (by decide)).1,
   delete_selector_identity.2.2 [("component", "component")] [⟨"pod"⟩]
      "collection labels are not matching" (by decide)⟩

/-- C2: the wait returns the pod without error when it is observed in phase
Running with all containers ready, returns the fatal `PodFailed` kind when
the pod is observed in phase Failed or Unknown, and returns the `Timeout`
kind when no deciding observation arrives before the deadline. -/
theorem waitAndGetComponentPod_spec :
    (∀ o rest, o.phase = .running → podReady o = true →
        waitAndGetComponentPod (o :: rest) = .ok o)
    ∧ (∀ o rest, o.phase = .failed ∨ o.phase = .unknown →
        waitAndGetComponentPod (o :: rest) = .error .podFailed)
    ∧ (∀ events, (∀ o ∈ events, decidesWait o = false) →
        waitAndGetComponentPod events = .error .timeout) := by
  refine ⟨?ok, ?bad, ?deadline⟩
  case ok =>
    rintro ⟨n, ph, cr⟩ rest hph hready
    subst hph
    simp only [waitAndGetComponentPod]
    simp [hready]
  case bad =>
    rintro ⟨n, ph, cr⟩ rest (hph | hph) <;> subst hph <;> rfl
  case deadline =>
    intro events
    induction events with
    | nil => intro _; rfl
    | cons o rest ih =>
      intro h
      have ho : decidesWait o = false := h o (by simp)
      have ht : waitAndGetComponentPod rest = .error .timeout :=
        ih fun o' ho' => h o' (by simp [ho'])
      obtain ⟨n, ph, cr⟩ := o
      cases ph <;> simp [decidesWait] at ho <;>
        simp [waitAndGetComponentPod, ht]
      simp [ho]

/-- Witness for C2 at the three concrete observations of the unit test:
Running-and-ready, Failed, and a non-deciding Pending stream. -/
theorem waitAndGetComponentPod_spec_witness :
    waitAndGetComponentPod [⟨"test", .running, [true]⟩]
        = .ok ⟨"test", .running, [true]⟩
    ∧ waitAndGetComponentPod [⟨"test", .failed, []⟩] = .error .podFailed
    ∧ waitAndGetComponentPod [⟨"test", .unknown, []⟩] = .error .podFailed
    ∧ waitAndGetComponentPod [⟨"test", .pending, []⟩] = .error .timeout :=
  ⟨waitAndGetComponentPod_spec.1 ⟨"test", .running, [true]⟩ [] rfl rfl,
   waitAndGetComponentPod_spec.2.1 ⟨"test", .failed, []⟩ [] (Or.inl rfl),
   waitAndGetComponentPod_spec.2.1 ⟨"test", .unknown, []⟩ [] (Or.inr rfl),
   waitAndGetComponentPod_spec.2.2 [⟨"test", .pending, []⟩] (by decide)⟩

/-- C9: a failure of the legacy catalog listing is never sent to the error
channel, so `Complete` returns exactly the devfile-registry listing error:
nil when that listing succeeds, whatever the legacy listing reported, for
every push target once context creation succeeds (and unconditionally on the
docker push target, which skips context creation). -/
theorem complete_ignores_legacy_failure :
    (∀ arg docker legacy devfileList,
        (Complete arg docker none legacy devfileList).1 = devfileList.err)
    ∧ (∀ arg contextErr legacy devfileList,
        (Complete arg true contextErr legacy devfileList).1
          = devfileList.err) := by
  constructor
  · intro arg docker legacy devfileList
    cases docker <;> simp [Complete]
  · intro arg contextErr legacy devfileList
    simp [Complete]

/-- Counterexample for C9 as stated: when the push target is not docker and
context creation fails, `Complete` returns the context-creation error even
though the devfile-registry listing succeeded, so an error from the
devfile-registry listing is not the only possible non-nil return. -/
theorem complete_context_error_counterexample :
    (Complete "nodejs" false (some "context error") ⟨none, []⟩
        ⟨none, true, []⟩).1 = some "context error"
    ∧ (⟨none, true, []⟩ : DevfileListAnswer).err = none :=
  ⟨rfl, rfl⟩

/-- C10: `Validate` returns nil in every state, the empty one included,
because the intended no-components-found error wraps the nil named return
value and wrapping nil yields nil. -/
theorem validate_always_none : ∀ o, Validate o = none := by
  intro o
  simp [Validate, wrapf]

lemma findSome?_singleton_id (u : Option String) : [u].findSome? id = u := by
  cases u <;> rfl

lemma findSome?_append_singleton (f : List (Option String)) (u : Option String) :
    (f ++ [u]).findSome? id = recordErr (f.findSome? id) u := by
  rw [List.findSome?_append, findSome?_singleton_id]
  cases f.findSome? id <;> rfl

lemma runnerStep_measure {N : Nat} {σ σ' : RunnerState}
    (h : RunnerStep N σ σ') : runnerMeasure σ' < runnerMeasure σ := by
  cases h with
  | start u p r f e hlt =>
    simp only [runnerMeasure, List.length_cons]
    omega
  | finish u p l r f e =>
    simp only [runnerMeasure, List.length_append, List.length_cons]
    omega

lemma runnerStep_inv {N : Nat} {units : List (Option String)}
    {σ σ' : RunnerState} (h : RunnerStep N σ σ') (hI : RunnerInv N units σ) :
    RunnerInv N units σ' := by
  obtain ⟨hb, hp, hf⟩ := hI
  cases h with
  | start u p r f e hlt =>
    refine ⟨by simp only [List.length_cons]; omega, ?_, hf⟩
    refine List.Perm.trans ?_ hp
    simp only [List.cons_append, List.append_assoc]
    exact List.perm_middle
  | finish u p l r f e =>
    refine ⟨?_, ?_, ?_⟩
    · simp only [List.length_append, List.length_cons] at hb ⊢
      omega
    · refine List.Perm.trans ?_ hp
      rw [List.perm_iff_count]
      intro a
      simp only [List.count_append, List.count_cons, List.count_nil]
      omega
    · rw [findSome?_append_singleton, ← hf]

lemma reaches_inv {N : Nat} {units : List (Option String)} {σ : RunnerState}
    (h : Relation.ReflTransGen (RunnerStep N) (initState units) σ) :
    RunnerInv N units σ := by
  induction h with
  | refl => exact ⟨Nat.zero_le _, by simp [initState], rfl⟩
  | tail hab hbc ih => exact runnerStep_inv hbc ih

lemma runner_progress {N : Nat} (hN : 1 ≤ N) (σ : RunnerState)
    (h : σ.pending ≠ [] ∨ σ.running ≠ []) : ∃ σ', RunnerStep N σ σ' := by
  obtain ⟨p, r, f, e⟩ := σ
  rcases r with _ | ⟨u, rt⟩
  · rcases p with _ | ⟨v, pt⟩
    · simp at h
    · exact ⟨_, RunnerStep.start v pt [] f e (by simpa using hN)⟩
  · exact ⟨_, RunnerStep.finish u p [] rt f e⟩

lemma stuck_of_empty {N : Nat} (f : List (Option String)) (e : Option String)
    (σ' : RunnerState) : ¬ RunnerStep N ⟨[], [], f, e⟩ σ' := by
  intro h
  have := runnerStep_measure h
  simp [runnerMeasure] at this

lemma stuck_empty {N : Nat} (hN : 1 ≤ N) (σ : RunnerState)
    (h : ∀ σ', ¬ RunnerStep N σ σ') : σ.pending = [] ∧ σ.running = [] := by
  by_contra hc
  have hne : σ.pending ≠ [] ∨ σ.running ≠ [] := by tauto
  obtain ⟨σ', hs⟩ := runner_progress hN σ hne
  exact h σ' hs

/-- C8: the bounded Task Runner over registered independent units keeps at
most N units running at any reachable state, strictly decreases its measure
on every step (so `Run()` terminates), can always step while units remain, and
at the terminal state all units have finished, the first observed error is
the error of the first failing unit in completion order, and the result is
nil exactly when no unit failed. -/
theorem taskRunner_run_spec (N : Nat) (units : List (Option String))
    (σ : RunnerState) (hN : 1 ≤ N)
    (h : Relation.ReflTransGen (RunnerStep N) (initState units) σ) :
    σ.running.length ≤ N
    ∧ (∀ σ', RunnerStep N σ σ' → runnerMeasure σ' < runnerMeasure σ)
    ∧ ((σ.pending ≠ [] ∨ σ.running ≠ []) → ∃ σ', RunnerStep N σ σ')
    ∧ ((∀ σ', ¬ RunnerStep N σ σ') →
        σ.pending = [] ∧ σ.running = [] ∧ σ.finished.Perm units
        ∧ σ.firstErr = σ.finished.findSome? id
        ∧ (σ.firstErr = none ↔ ∀ u ∈ units, u = none)) := by
  have hI := reaches_inv h
  refine ⟨hI.bound, fun σ' hs => runnerStep_measure hs,
    runner_progress hN σ, ?_⟩
  intro hstuck
  obtain ⟨hp, hr⟩ := stuck_empty hN σ hstuck
  have hperm : σ.finished.Perm units := by
    have hq := hI.perm
    rw [hp, hr] at hq
    simpa using hq
  refine ⟨hp, hr, hperm, hI.first, ?_⟩
  rw [hI.first, List.findSome?_eq_none_iff]
  constructor
  · intro hall u hu
    exact hall u (hperm.mem_iff.mpr hu)
  · intro hall u hu
    exact hall u (hperm.mem_iff.mp hu)

lemma taskRunner_witness_reaches :
    Relation.ReflTransGen (RunnerStep 2) (initState [some "boom", none])
      ⟨[], [], [none, some "boom"], some "boom"⟩ := by
  have s1 : RunnerStep 2 (initState [some "boom", none])
      ⟨[none], [some "boom"], [], none⟩ :=
    RunnerStep.start (some "boom") [none] [] [] none (by decide)
  have s2 : RunnerStep 2 ⟨[none], [some "boom"], [], none⟩
      ⟨[], [none, some "boom"], [], none⟩ :=
    RunnerStep.start none [] [some "boom"] [] none (by decide)
  have s3 : RunnerStep 2 ⟨[], [none, some "boom"], [], none⟩
      ⟨[], [some "boom"], [none], none⟩ :=
    RunnerStep.finish none [] [] [some "boom"] [] none
  have s4 : RunnerStep 2 ⟨[], [some "boom"], [none], none⟩
      ⟨[], [], [none, some "boom"], some "boom"⟩ :=
    RunnerStep.finish (some "boom") [] [] [] [none] none
  exact .head s1 (.head s2 (.head s3 (.head s4 .refl)))

/-- Witness for C8: a complete concrete run of two units over two workers, one
unit failing with "boom"; at the terminal state the completion log is a
permutation of the registered units and the returned error is the first
failure observed. -/
theorem taskRunner_run_spec_witness :
    ([none, some "boom"] : List (Option String)).Perm [some "boom", none]
    ∧ (some "boom" : Option String) = [none, some "boom"].findSome? id := by
  have h := (taskRunner_run_spec 2 [some "boom", none]
      ⟨[], [], [none, some "boom"], some "boom"⟩ (by decide)
      taskRunner_witness_reaches).2.2.2
      (stuck_of_empty [none, some "boom"] (some "boom"))
  exact ⟨h.2.2.1, h.2.2.2.1⟩

end Odo
